import Mathlib

/-!
Verification development for the gemini-chess move server (`src/app.py`).

The repository delegates chess rules to the external python-chess library
("Rules Engine"), HTTP to Flask, and the model transport to the Vertex AI
client.  Those collaborators are embedded abstractly: an `Engine` record
supplies legal-move enumeration, token parsing, move application, rendering
and the game-end predicates; the LLM transport is a stream of replies
indexed by the send count, where a reply is either text or a raised
transport exception; the random source behind `random.choice` (which picks
a list index uniformly) is a seed interpreted modulo the list length.

The functions `parse_llm_response`, `get_random_move_with_thoughts`,
`get_llm_move` and `handle_move` are translated from the source one branch
at a time.  String manipulation (`strip`, `splitlines`, `join`, `lower`,
`startswith`) is re-implemented structurally over `List Char` so that every
definition evaluates inside the kernel; `splitlines` is modelled as
splitting on the newline character, and stripping removes ASCII whitespace,
which is the behaviour exercised by the server.
-/

namespace GeminiChess

/-! ## Rules Engine collaborator model (python-chess interface boundary) -/

inductive Color where
  | white
  | black
  deriving DecidableEq

inductive PieceType where
  | pawn
  | knight
  | bishop
  | rook
  | queen
  | king
  deriving DecidableEq

structure Piece where
  ptype : PieceType
  color : Color
  deriving DecidableEq

/-- The game-end predicate answers of the Rules Engine for one position. -/
structure Preds where
  is_checkmate : Bool
  is_stalemate : Bool
  is_insufficient_material : Bool
  is_seventyfive_moves : Bool
  is_fivefold_repetition : Bool
  is_check : Bool
  deriving DecidableEq

/-- Abstract Rules Engine (python-chess `Board`) interface consumed by the
server: positions `P`, move handles `M`, legal-move enumeration, UCI token
parsing (`none` models the `ValueError` raised on malformed or rejected
tokens), move application, SAN/UCI rendering, FEN serialisation, piece
lookup, side to move and the game-end predicates. -/
structure Engine (P M : Type) where
  legal_moves : P → List M
  parse_uci : P → String → Option M
  push : P → M → P
  san : P → M → String
  uci : M → String
  fen : P → String
  piece_at : P → Nat → Option Piece
  turn : P → Color
  is_checkmate : P → Bool
  is_stalemate : P → Bool
  is_insufficient_material : P → Bool
  is_seventyfive_moves : P → Bool
  is_fivefold_repetition : P → Bool
  is_check : P → Bool

variable {P M : Type}

def preds (eng : Engine P M) (p : P) : Preds :=
  ⟨eng.is_checkmate p, eng.is_stalemate p, eng.is_insufficient_material p,
   eng.is_seventyfive_moves p, eng.is_fivefold_repetition p, eng.is_check p⟩

/-- python-chess `Board.is_game_over()`: checkmate, stalemate, insufficient
material, seventyfive-move rule or fivefold repetition (collaborator
contract of the Rules Engine). -/
def Preds.game_over (pr : Preds) : Bool :=
  pr.is_checkmate || pr.is_stalemate || pr.is_insufficient_material ||
  pr.is_seventyfive_moves || pr.is_fivefold_repetition

def is_game_over (eng : Engine P M) (p : P) : Bool :=
  (preds eng p).game_over

/-- The process-wide board together with its `move_stack`.  python-chess
`Board.push` updates the position and appends the move to `move_stack` in
one step. -/
structure GameState (P M : Type) where
  pos : P
  stack : List M

def push_state (eng : Engine P M) (st : GameState P M) (m : M) : GameState P M :=
  ⟨eng.push st.pos m, st.stack ++ [m]⟩

/-! ## String utilities (Python `str` operations, structurally recursive) -/

/-- Python `str.strip` restricted to ASCII whitespace. -/
def strip (l : List Char) : List Char :=
  ((l.dropWhile Char.isWhitespace).reverse.dropWhile Char.isWhitespace).reverse

/-- Python `str.splitlines` modelled as splitting on the newline char. -/
def split_on_newline : List Char → List (List Char)
  | [] => [[]]
  | c :: cs =>
    let r := split_on_newline cs
    if c = '\n' then [] :: r
    else
      match r with
      | [] => [[c]]
      | line :: rest => (c :: line) :: rest

/-- Python `"\n".join`. -/
def join_newline : List (List Char) → List Char
  | [] => []
  | [l] => l
  | l :: ls => l ++ '\n' :: join_newline ls

/-- Python `str.lower` on the ASCII range. -/
def lower (s : String) : String :=
  String.mk (s.toList.map Char.toLower)

/-- Python `str.startswith`. -/
def starts_with_chars : List Char → List Char → Bool
  | _, [] => true
  | [], _ :: _ => false
  | c :: cs, d :: ds => c = d && starts_with_chars cs ds

def py_startswith (s pre : String) : Bool :=
  starts_with_chars s.toList pre.toList

/-! ## Move-token grammar and square parsing -/

def isFileChar (c : Char) : Bool := 'a' ≤ c ∧ c ≤ 'h'

def isRankChar (c : Char) : Bool := '1' ≤ c ∧ c ≤ '8'

def isPromoChar (c : Char) : Bool := c = 'q' ∨ c = 'n' ∨ c = 'r' ∨ c = 'b'

/-- The regular expression used at `app.py:134`,
`re.fullmatch` of `[a-h][1-8][a-h][1-8][qnrb]?` (no IGNORECASE flag). -/
def is_uci_token_chars : List Char → Bool
  | [a, b, c, d] => isFileChar a && isRankChar b && isFileChar c && isRankChar d
  | [a, b, c, d, e] =>
    isFileChar a && isRankChar b && isFileChar c && isRankChar d && isPromoChar e
  | _ => false

def is_uci_token (s : String) : Bool := is_uci_token_chars s.toList

/-- The case-insensitive token grammar stated by the spec (spec wording:
`[a-h][1-8][a-h][1-8][qnrb]?` case-insensitive).  Defined from the spec for
comparison with the grammar the code actually uses. -/
def uci_token_ci (l : List Char) : Bool :=
  is_uci_token_chars (l.map Char.toLower)

/-- python-chess `chess.parse_square`: accepts exactly the 64 two-character
square names, returns `rank * 8 + file`, raises `ValueError` (here `none`)
otherwise. -/
def parse_square (name : String) : Option Nat :=
  match name.toList with
  | [f, r] =>
    if isFileChar f ∧ isRankChar r then
      some ((r.toNat - '1'.toNat) * 8 + (f.toNat - 'a'.toNat))
    else none
  | _ => none

/-- python-chess `chess.square_rank`. -/
def square_rank (sq : Nat) : Nat := sq / 8

/-! ## Response Parser (`parse_llm_response`, app.py:123-151) -/

/-- Translation of `parse_llm_response`.  The Python function starts from
the defaults `("AI analysis not available.", None)`; a falsy (empty)
response keeps them.  A whitespace-only response strips to no lines and
yields the empty-response placeholder.  Otherwise the last line, stripped,
is checked against the token regex: on a match it becomes the move and the
preceding lines, joined and stripped, become the thoughts (or the
only-move placeholder); on a mismatch the whole stripped text becomes the
thoughts and the move is `none`. -/
def parse_llm_response (response_text : String) : String × Option String :=
  if response_text = "" then ("AI analysis not available.", none)
  else
    let t := strip response_text.toList
    if t = [] then ("(LLM response was empty)", none)
    else
      let lines := split_on_newline t
      let potential_move := strip (lines.getLastD [])
      if is_uci_token_chars potential_move then
        (if lines.length > 1 then String.mk (strip (join_newline lines.dropLast))
         else "(No thoughts provided, only move)",
         some (String.mk potential_move))
      else (String.mk t, none)

/-! ## Fallback Selector (`get_random_move_with_thoughts`, app.py:153-170) -/

/-- Outcome of a negotiation: the thoughts string and the move token, the
dictionary returned by `get_llm_move`. -/
structure LLMResult where
  thoughts : String
  move : Option String
  deriving DecidableEq

/-- Python `random.choice`: selects a list index uniformly at random.  The
sampled index is supplied as `seed`, reduced modulo the length. -/
def random_choice (seed : Nat) (l : List α) (h : l ≠ []) : α :=
  l.get ⟨seed % l.length, Nat.mod_lt _ (List.length_pos.mpr h)⟩

/-- Translation of `get_random_move_with_thoughts`.  Python `or` treats the
empty string as falsy, so an empty `existing_thoughts` also falls back to
the generic string.  The inner `try` of the source cannot fire here because
every modelled operation is total. -/
def get_random_move_with_thoughts (eng : Engine P M) (pos : P) (seed : Nat)
    (existing_thoughts : Option String) : LLMResult :=
  let base :=
    match existing_thoughts with
    | none => "AI analysis not available."
    | some s => if s = "" then "AI analysis not available." else s
  let thoughts := base ++ " (AI failed to provide a valid move, choosing randomly.)"
  match eng.legal_moves pos with
  | [] => ⟨thoughts ++ " (No legal moves available!)", none⟩
  | m :: ms =>
    ⟨thoughts, some (eng.uci (random_choice seed (m :: ms) (List.cons_ne_nil m ms)))⟩

/-! ## Negotiation Engine (`get_llm_move`, app.py:34-121) -/

/-- One transport interaction with the LLM client: either the reply text of
`chat.send_message(...).text`, or a raised exception. -/
inductive SendResult where
  | ok (text : String)
  | exn
  deriving DecidableEq

/-- The validity test at app.py:87-94: a candidate token is usable when it
is truthy, `board.parse_uci` does not raise, and the parsed move is in
`board.legal_moves`; any other outcome falls through to the retry path. -/
def validate_candidate [DecidableEq M] (eng : Engine P M) (pos : P)
    (mv : Option String) : Option M :=
  match mv with
  | none => none
  | some u =>
    if u = "" then none
    else
      match eng.parse_uci pos u with
      | none => none
      | some m => if m ∈ eng.legal_moves pos then some m else none

/-- The `while retries < max_retries` loop of `get_llm_move`, recursing on
the remaining retry budget (`fuel = max_retries - retries`).  `idx` counts
the transport interactions performed so far and indexes the next one.  Each
iteration first validates the candidate parsed from the previous reply,
returning it on success; otherwise it sends the correction prompt (an
exception there is caught by the enclosing `try` at app.py:119-121, which
calls the fallback with no thoughts argument) and parses the new reply.
When the budget is spent the loop exits to the fallback, keeping the last
parsed thoughts. -/
def negotiate_go [DecidableEq M] (eng : Engine P M) (pos : P)
    (replies : Nat → SendResult) (seed : Nat) :
    Nat → String → Option String → Nat → LLMResult × Nat
  | idx, thoughts, _, 0 =>
    (get_random_move_with_thoughts eng pos seed (some thoughts), idx)
  | idx, thoughts, mv, fuel + 1 =>
    match validate_candidate eng pos mv with
    | some _ => (⟨thoughts, mv⟩, idx)
    | none =>
      match replies idx with
      | SendResult.exn => (get_random_move_with_thoughts eng pos seed none, idx + 1)
      | SendResult.ok t =>
        let p := parse_llm_response t
        negotiate_go eng pos replies seed (idx + 1) p.1 p.2 fuel

/-- Translation of `get_llm_move`.  A missing client bypasses negotiation
and calls the fallback with no thoughts.  Otherwise the initial prompt is
sent (interaction 0; a failure of `chats.create` or of this send is caught
by the `try` and degrades to the fallback with no thoughts), the reply is
parsed, and the retry loop runs with `max_retries = 3`.  The result is
paired with the number of transport interactions performed. -/
def get_llm_move [DecidableEq M] (eng : Engine P M) (pos : P)
    (replies : Nat → SendResult) (seed : Nat) (client_ok : Bool) : LLMResult × Nat :=
  if client_ok = false then (get_random_move_with_thoughts eng pos seed none, 0)
  else
    match replies 0 with
    | SendResult.exn => (get_random_move_with_thoughts eng pos seed none, 1)
    | SendResult.ok t =>
      let p := parse_llm_response t
      negotiate_go eng pos replies seed 1 p.1 p.2 3

/-! ## Turn Resolver (`handle_move`, app.py:192-316) -/

/-- The JSON body of a `/move` request: `from`, `to` and the optional
promotion hint. -/
structure MoveRequest where
  fromSq : String
  toSq : String
  promotion : Option String

/-- Token construction at app.py:208-219: concatenate the square names;
when a truthy promotion hint is supplied and both names have length two,
parse the squares (a `ValueError` silently skips the hint), and append the
lowercased hint only when the origin piece is a pawn reaching the last
rank of its colour. -/
def build_move_uci (eng : Engine P M) (pos : P) (d : MoveRequest) : String :=
  let base := d.fromSq ++ d.toSq
  match d.promotion with
  | none => base
  | some promo =>
    if promo = "" then base
    else if d.fromSq.length = 2 ∧ d.toSq.length = 2 then
      match parse_square d.fromSq, parse_square d.toSq with
      | some from_sq, some to_sq =>
        match eng.piece_at pos from_sq with
        | some piece =>
          if piece.ptype = PieceType.pawn ∧
             ((piece.color = Color.white ∧ square_rank to_sq = 7) ∨
              (piece.color = Color.black ∧ square_rank to_sq = 0)) then
            base ++ lower promo
          else base
        | none => base
      | _, _ => base
    else base

def color_str (c : Color) : String :=
  if c = Color.black then "Black" else "White"

/-- Status derivation at app.py:271-288: test checkmate, stalemate and
insufficient material (each forcing the game-over flag), then check, then
fall back to a to-move or generic game-over phrase.  Returns the phrase
and the updated game-over flag. -/
def status_detail (pr : Preds) (turn : Color) (game_over : Bool) : String × Bool :=
  if pr.is_checkmate then
    ((if turn = Color.black then "CHECKMATE! White wins." else "CHECKMATE! Black wins."), true)
  else if pr.is_stalemate then ("STALEMATE! Draw.", true)
  else if pr.is_insufficient_material then ("DRAW! Insufficient material.", true)
  else if pr.is_check then (color_str turn ++ " is in CHECK!", game_over)
  else if game_over = false then (color_str turn ++ " to move.", game_over)
  else ("Game Over.", game_over)

/-- Narrative composition at app.py:292-297. -/
def compose_status (user_move_san : String) (llm_move_san : Option String)
    (detail : String) : String :=
  match llm_move_san with
  | some s =>
    if py_startswith s "[LLM" then
      "You played " ++ user_move_san ++ ". " ++ s ++ " " ++ detail
    else
      "You played " ++ user_move_san ++ ". Computer played " ++ s ++ ". " ++ detail
  | none => "Move " ++ user_move_san ++ " successful. " ++ detail

/-- HTTP replies produced by `handle_move`: the JSON success body, or the
400 error body carrying the current FEN. -/
inductive HttpReply where
  | ok (fen : String) (status_text : String) (game_over : Bool)
      (llm_thoughts : Option String)
  | badRequest (error : String) (fen : String)
  deriving DecidableEq

/-- Outcome of the engine-side half of a turn: the resulting state, the
SAN (or bracketed failure marker), the thoughts forwarded to the frontend
and the game-over flag. -/
structure LLMTurnOut (P M : Type) where
  st : GameState P M
  llm_move_san : Option String
  llm_thoughts : Option String
  game_over : Bool

/-- The engine-turn block at app.py:241-268: negotiate a move, re-parse and
re-validate it against the current legal moves, push it only on success,
and otherwise record a bracketed failure marker without touching the
board.  The thoughts are kept in every branch. -/
def llm_turn [DecidableEq M] (eng : Engine P M) (st1 : GameState P M)
    (replies : Nat → SendResult) (seed : Nat) (client_ok : Bool)
    (game_over : Bool) : LLMTurnOut P M :=
  match (get_llm_move eng st1.pos replies seed client_ok).1 with
  | ⟨th, some u⟩ =>
    match eng.parse_uci st1.pos u with
    | some lm =>
      if lm ∈ eng.legal_moves st1.pos then
        ⟨push_state eng st1 lm, some (eng.san st1.pos lm), some th,
         is_game_over eng (eng.push st1.pos lm)⟩
      else ⟨st1, some ("[LLM illegal move: " ++ u ++ "]"), some th, game_over⟩
    | none => ⟨st1, some ("[LLM invalid format: " ++ u ++ "]"), some th, game_over⟩
  | ⟨th, none⟩ => ⟨st1, some "[LLM failed to move]", some th, game_over⟩

/-- The successful-user-move branch of `handle_move` (app.py:230-308): push
the user move, run the engine turn when the game continues and Black is to
move, derive the status from the final position and compose the reply. -/
def turn_success [DecidableEq M] (eng : Engine P M) (st : GameState P M) (move : M)
    (replies : Nat → SendResult) (seed : Nat) (client_ok : Bool) :
    GameState P M × HttpReply :=
  let st1 := push_state eng st move
  let go0 := is_game_over eng st1.pos
  let step : LLMTurnOut P M :=
    if go0 = false ∧ eng.turn st1.pos = Color.black then
      llm_turn eng st1 replies seed client_ok go0
    else ⟨st1, none, none, go0⟩
  let sd := status_detail (preds eng step.st.pos) (eng.turn step.st.pos) step.game_over
  (step.st,
   HttpReply.ok (eng.fen step.st.pos)
     (compose_status (eng.san st.pos move) step.llm_move_san sd.1)
     sd.2 step.llm_thoughts)

/-- Translation of the `/move` handler `handle_move`.  `data = none` models
a request body without the required fields.  A `ValueError` from
`board.parse_uci` on the constructed token yields a 400 with the unchanged
FEN; a parsed move outside the legal set yields the illegal-move 400; a
legal move proceeds to `turn_success`. -/
def handle_move [DecidableEq M] (eng : Engine P M) (st : GameState P M)
    (data : Option MoveRequest) (replies : Nat → SendResult) (seed : Nat)
    (client_ok : Bool) : GameState P M × HttpReply :=
  match data with
  | none => (st, HttpReply.badRequest "Invalid move data format" (eng.fen st.pos))
  | some d =>
    match eng.parse_uci st.pos (build_move_uci eng st.pos d) with
    | none =>
      (st, HttpReply.badRequest ("Invalid move format: " ++ build_move_uci eng st.pos d)
        (eng.fen st.pos))
    | some move =>
      if move ∈ eng.legal_moves st.pos then
        turn_success eng st move replies seed client_ok
      else
        (st, HttpReply.badRequest ("Illegal move: " ++ build_move_uci eng st.pos d)
          (eng.fen st.pos))

/-! ## Concrete instance used by the witnesses -/

/-- A two-position Rules Engine instance for evaluating the theorems on
concrete inputs: in position `true` the legal moves are `0` and `1`
(tokens `e7e5` and `g8f6`), token `e2e4` parses to the non-legal handle
`2`, a white pawn sits on square 52 (`e7`); position `false` is terminal
with no legal moves. -/
def demoEngine : Engine Bool Nat where
  legal_moves := fun p => if p then [0, 1] else []
  parse_uci := fun p s =>
    if p then
      if s = "e7e5" then some 0
      else if s = "g8f6" then some 1
      else if s = "e2e4" then some 2
      else none
    else none
  push := fun _ _ => true
  san := fun _ m => if m = 0 then "e5" else if m = 1 then "Nf6" else "e4"
  uci := fun m => if m = 0 then "e7e5" else if m = 1 then "g8f6" else "e2e4"
  fen := fun p => if p then "FEN1" else "FEN0"
  piece_at := fun _ sq =>
    if sq = 52 then some ⟨PieceType.pawn, Color.white⟩ else none
  turn := fun p => if p then Color.black else Color.white
  is_checkmate := fun _ => false
  is_stalemate := fun _ => false
  is_insufficient_material := fun _ => false
  is_seventyfive_moves := fun _ => false
  is_fivefold_repetition := fun _ => false
  is_check := fun _ => false

/-- LLM stub whose first three replies carry the unusable token `zzzz` and
whose fourth reply (the answer to the third correction prompt) is the
token `g8f6`, legal in position `true` of `demoEngine`. -/
def buggyReplies : Nat → SendResult :=
  fun i => if i < 3 then SendResult.ok "zzzz" else SendResult.ok "g8f6"

/-- LLM stub that answers the initial prompt with a rationale and an
unparseable move token, then raises a transport exception on every later
interaction. -/
def exnAfterFirstReplies : Nat → SendResult
  | 0 => SendResult.ok "I will develop.\nb8c6"
  | _ => SendResult.exn

/-! ## Helper lemmas -/

theorem push_state_stack (eng : Engine P M) (st : GameState P M) (m : M) :
    (push_state eng st m).stack = st.stack ++ [m] := rfl

theorem parse_square_length {s : String} {x : Nat} (h : parse_square s = some x) :
    s.length = 2 := by
  unfold parse_square at h
  rw [show s.length = s.toList.length from rfl]
  rcases hl : s.toList with _ | ⟨a, _ | ⟨b, _ | ⟨c, l⟩⟩⟩ <;> rw [hl] at h <;> simp_all

theorem lower_length (p : String) : (lower p).length = p.length := by
  show (p.data.map Char.toLower).length = p.data.length
  exact List.length_map _ _

theorem append_lower_ne (b : String) {p : String} (hp : p ≠ "") :
    b ++ lower p ≠ b := by
  intro h
  have hlen := congrArg String.length h
  rw [String.length_append, lower_length] at hlen
  have hzero : p.length = 0 := by omega
  apply hp
  have : p.data.length = 0 := hzero
  have hdata : p.data = [] := List.length_eq_zero.mp this
  cases p
  simp_all

theorem random_choice_congr {α : Type _} {l l' : List α} (h : l = l') (seed : Nat)
    (hl : l ≠ []) (hl' : l' ≠ []) :
    random_choice seed l hl = random_choice seed l' hl' := by
  subst h
  rfl

theorem get_random_move_nonempty (eng : Engine P M) (pos : P) (seed : Nat)
    (et : Option String) (h : eng.legal_moves pos ≠ []) :
    (get_random_move_with_thoughts eng pos seed et).move =
      some (eng.uci (random_choice seed (eng.legal_moves pos) h)) := by
  simp only [get_random_move_with_thoughts]
  split
  · rename_i heq
    exact absurd heq h
  · rename_i m ms heq
    show some _ = some _
    rw [random_choice_congr heq.symm seed (List.cons_ne_nil m ms) h]

theorem llm_turn_state_cases [DecidableEq M] (eng : Engine P M) (st1 : GameState P M)
    (replies : Nat → SendResult) (seed : Nat) (ck go : Bool) :
    (llm_turn eng st1 replies seed ck go).st = st1 ∨
    ∃ m, m ∈ eng.legal_moves st1.pos ∧
      (llm_turn eng st1 replies seed ck go).st = push_state eng st1 m := by
  unfold llm_turn
  split
  · split
    · split
      · rename_i lm _ hmem
        right
        exact ⟨lm, hmem, rfl⟩
      · left; rfl
    · left; rfl
  · left; rfl

theorem turn_success_state_cases [DecidableEq M] (eng : Engine P M) (st : GameState P M)
    (move : M) (replies : Nat → SendResult) (seed : Nat) (ck : Bool) :
    (turn_success eng st move replies seed ck).1 = push_state eng st move ∨
    ∃ m2, m2 ∈ eng.legal_moves (push_state eng st move).pos ∧
      (turn_success eng st move replies seed ck).1 =
        push_state eng (push_state eng st move) m2 := by
  by_cases hc : is_game_over eng (push_state eng st move).pos = false ∧
      eng.turn (push_state eng st move).pos = Color.black
  · have hst : (turn_success eng st move replies seed ck).1 =
        (llm_turn eng (push_state eng st move) replies seed ck
          (is_game_over eng (push_state eng st move).pos)).st := by
      simp only [turn_success, if_pos hc]
    rcases llm_turn_state_cases eng (push_state eng st move) replies seed ck
        (is_game_over eng (push_state eng st move).pos) with h | ⟨m2, hm2, h⟩
    · left; rw [hst, h]
    · right; exact ⟨m2, hm2, by rw [hst, h]⟩
  · left
    simp only [turn_success, if_neg hc]

/-! ## Claim theorems -/

/-- Claim C1: a move request either leaves the game state untouched, or
applies exactly one user move drawn from the legal-move set of the current
position, or additionally one engine move drawn from the legal-move set of
the position reached after the user move; each applied move is recorded in
the history in order. -/
theorem moves_applied_only_from_legal_set {P M : Type} [DecidableEq M]
    (eng : Engine P M) (st : GameState P M) (data : Option MoveRequest)
    (replies : Nat → SendResult) (seed : Nat) (ck : Bool) :
    ((handle_move eng st data replies seed ck).1 = st ∧
      (handle_move eng st data replies seed ck).1.stack = st.stack) ∨
    (∃ m, m ∈ eng.legal_moves st.pos ∧
      (handle_move eng st data replies seed ck).1 = push_state eng st m ∧
      (handle_move eng st data replies seed ck).1.stack = st.stack ++ [m]) ∨
    (∃ m1 m2, m1 ∈ eng.legal_moves st.pos ∧
      m2 ∈ eng.legal_moves (push_state eng st m1).pos ∧
      (handle_move eng st data replies seed ck).1 =
        push_state eng (push_state eng st m1) m2 ∧
      (handle_move eng st data replies seed ck).1.stack = st.stack ++ [m1, m2]) := by
  rcases data with _ | d
  · left; exact ⟨rfl, rfl⟩
  · rcases hpu : eng.parse_uci st.pos (build_move_uci eng st.pos d) with _ | move
    · left
      constructor <;> simp [handle_move, hpu]
    · by_cases hmem : move ∈ eng.legal_moves st.pos
      · have hred : handle_move eng st (some d) replies seed ck =
            turn_success eng st move replies seed ck := by
          simp [handle_move, hpu, hmem]
        rcases turn_success_state_cases eng st move replies seed ck with h | ⟨m2, hm2, h⟩
        · right; left
          refine ⟨move, hmem, by rw [hred]; exact h, ?_⟩
          rw [hred, h, push_state_stack]
        · right; right
          refine ⟨move, m2, hmem, hm2, by rw [hred]; exact h, ?_⟩
          rw [hred, h, push_state_stack, push_state_stack]
          simp
      · left
        constructor <;> simp [handle_move, hpu, hmem]

/-- Claim C2: with the client available and an LLM stub that always
replies with text whose candidate move never validates, the negotiation
performs exactly four transport interactions (one initial send and three
correction sends) and then returns the fallback result built from the
thoughts of the final reply. -/
theorem negotiation_exhausts_after_four_calls {P M : Type} [DecidableEq M]
    (eng : Engine P M) (pos : P) (replies : Nat → SendResult) (seed : Nat)
    (t : Nat → String)
    (hok : ∀ i, replies i = SendResult.ok (t i))
    (hbad : ∀ i, validate_candidate eng pos (parse_llm_response (t i)).2 = none) :
    get_llm_move eng pos replies seed true =
      (get_random_move_with_thoughts eng pos seed (some (parse_llm_response (t 3)).1), 4) := by
  simp [get_llm_move, negotiate_go, hok 0, hbad 0, hok 1, hbad 1, hok 2, hbad 2, hok 3]

/-- Claim C2 witness: the all-invalid stub `zzzz` against the demo engine
performs exactly four interactions and falls back. -/
theorem negotiation_exhausts_after_four_calls_witness :
    get_llm_move demoEngine true (fun _ => SendResult.ok "zzzz") 0 true =
      (get_random_move_with_thoughts demoEngine true 0 (some "zzzz"), 4) := by
  have h := negotiation_exhausts_after_four_calls demoEngine true
      (fun _ => SendResult.ok "zzzz") 0 (fun _ => "zzzz")
      (fun _ => rfl)
      (fun i => by
        show validate_candidate demoEngine true (parse_llm_response "zzzz").2 = none
        decide)
  exact h

/-- Claim C3, code divergence: the reply to the third correction prompt
carries the token `g8f6`, which validates to the legal move `1`, yet the
negotiation returns the fallback-selected move `e7e5` after four
interactions — the final reply is parsed but its move is never checked. -/
theorem third_correction_reply_discarded :
    validate_candidate demoEngine true (parse_llm_response "g8f6").2 = some 1 ∧
    get_llm_move demoEngine true buggyReplies 0 true =
      (get_random_move_with_thoughts demoEngine true 0
        (some "(No thoughts provided, only move)"), 4) ∧
    (get_llm_move demoEngine true buggyReplies 0 true).1.move = some "e7e5" := by
  decide

/-- Claim C4 counterexample: after a first reply whose rationale
`I will develop.` was collected, a transport exception makes the
negotiation return the generic rationale, not the collected one. -/
theorem llm_exception_discards_collected_rationale :
    parse_llm_response "I will develop.\nb8c6" = ("I will develop.", some "b8c6") ∧
    (get_llm_move demoEngine true exnAfterFirstReplies 0 true).1.thoughts =
      "AI analysis not available. (AI failed to provide a valid move, choosing randomly.)" ∧
    (get_llm_move demoEngine true exnAfterFirstReplies 0 true).1.thoughts ≠
      "I will develop. (AI failed to provide a valid move, choosing randomly.)" := by
  decide

/-- Claim C4 amended: a transport exception at any interaction is caught
and degrades the negotiation to the fallback selector called with no
thoughts, so the returned rationale is always the generic one, whatever
rationale had been collected before. -/
theorem llm_exception_degrades_to_generic_fallback {P M : Type} [DecidableEq M]
    (eng : Engine P M) (pos : P) (replies : Nat → SendResult) (seed : Nat) :
    (replies 0 = SendResult.exn →
      get_llm_move eng pos replies seed true =
        (get_random_move_with_thoughts eng pos seed none, 1)) ∧
    (∀ idx thoughts mv fuel,
      validate_candidate eng pos mv = none → replies idx = SendResult.exn →
      negotiate_go eng pos replies seed idx thoughts mv (fuel + 1) =
        (get_random_move_with_thoughts eng pos seed none, idx + 1)) := by
  constructor
  · intro h
    simp [get_llm_move, h]
  · intro idx th mv fuel h1 h2
    simp [negotiate_go, h1, h2]

/-- Claim C4 amended witness: a client raising on the very first send. -/
theorem llm_exception_degrades_to_generic_fallback_witness :
    get_llm_move demoEngine true (fun _ => SendResult.exn) 0 true =
      (get_random_move_with_thoughts demoEngine true 0 none, 1) :=
  (llm_exception_degrades_to_generic_fallback demoEngine true
    (fun _ => SendResult.exn) 0).1 rfl

/-- Claim C5 counterexample: in a position that is a seventyfive-move draw
(all other end predicates false), the derived status depends on the check
flag — `White is in CHECK!` versus the generic `Game Over.` — so the
move-count draw is not tested before check as the claimed priority order
requires, and no draw phrase is produced for it at all. -/
theorem status_check_tested_before_draw_rules :
    status_detail ⟨false, false, false, true, false, true⟩ Color.white true =
      ("White is in CHECK!", true) ∧
    status_detail ⟨false, false, false, true, false, false⟩ Color.white true =
      ("Game Over.", true) ∧
    status_detail ⟨false, false, false, true, false, true⟩ Color.white true ≠
      status_detail ⟨false, false, false, true, false, false⟩ Color.white true := by
  decide

/-- Claim C5 amended: the status is derived by testing checkmate, then
stalemate, then insufficient material, then check, then the to-move phrase
when the game-over flag is unset, else the generic `Game Over.`; the
seventyfive-move and fivefold-repetition predicates are never tested by
the status derivation (they reach it only through the game-over flag); and
every successful turn reply composes its narrative from the rendered user
move, the optional engine move or failure marker, and the status phrase of
the final position. -/
theorem status_priority_and_narrative (P M : Type) [DecidableEq M] (eng : Engine P M) :
    (∀ pr : Preds, ∀ turn go, pr.is_checkmate = true →
      status_detail pr turn go =
        ((if turn = Color.black then "CHECKMATE! White wins."
          else "CHECKMATE! Black wins."), true)) ∧
    (∀ pr : Preds, ∀ turn go, pr.is_checkmate = false → pr.is_stalemate = true →
      status_detail pr turn go = ("STALEMATE! Draw.", true)) ∧
    (∀ pr : Preds, ∀ turn go, pr.is_checkmate = false → pr.is_stalemate = false →
      pr.is_insufficient_material = true →
      status_detail pr turn go = ("DRAW! Insufficient material.", true)) ∧
    (∀ pr : Preds, ∀ turn go, pr.is_checkmate = false → pr.is_stalemate = false →
      pr.is_insufficient_material = false → pr.is_check = true →
      status_detail pr turn go = (color_str turn ++ " is in CHECK!", go)) ∧
    (∀ pr : Preds, ∀ turn, pr.is_checkmate = false → pr.is_stalemate = false →
      pr.is_insufficient_material = false → pr.is_check = false →
      status_detail pr turn false = (color_str turn ++ " to move.", false)) ∧
    (∀ pr : Preds, ∀ turn, pr.is_checkmate = false → pr.is_stalemate = false →
      pr.is_insufficient_material = false → pr.is_check = false →
      status_detail pr turn true = ("Game Over.", true)) ∧
    (∀ st data replies seed ck fenv stx gov th,
      (handle_move eng st data replies seed ck).2 = HttpReply.ok fenv stx gov th →
      ∃ usan lsan go0,
        stx = compose_status usan lsan
          (status_detail (preds eng (handle_move eng st data replies seed ck).1.pos)
            (eng.turn (handle_move eng st data replies seed ck).1.pos) go0).1 ∧
        gov = (status_detail (preds eng (handle_move eng st data replies seed ck).1.pos)
            (eng.turn (handle_move eng st data replies seed ck).1.pos) go0).2) := by
  refine ⟨?_, ?_, ?_, ?_, ?_, ?_, ?_⟩
  · intro pr turn go h
    simp [status_detail, h]
  · intro pr turn go h1 h2
    simp [status_detail, h1, h2]
  · intro pr turn go h1 h2 h3
    simp [status_detail, h1, h2, h3]
  · intro pr turn go h1 h2 h3 h4
    simp [status_detail, color_str, h1, h2, h3, h4]
  · intro pr turn h1 h2 h3 h4
    simp [status_detail, color_str, h1, h2, h3, h4]
  · intro pr turn h1 h2 h3 h4
    simp [status_detail, color_str, h1, h2, h3, h4]
  · intro st data replies seed ck fenv stx gov th h
    rcases data with _ | d
    · simp [handle_move] at h
    · rcases hpu : eng.parse_uci st.pos (build_move_uci eng st.pos d) with _ | move
      · simp [handle_move, hpu] at h
      · by_cases hmem : move ∈ eng.legal_moves st.pos
        · have hred : handle_move eng st (some d) replies seed ck =
              turn_success eng st move replies seed ck := by
            simp [handle_move, hpu, hmem]
          rw [hred] at h ⊢
          unfold turn_success at h ⊢
          simp only [HttpReply.ok.injEq] at h
          exact ⟨eng.san st.pos move, _, _, h.2.1.symm, h.2.2.1.symm⟩
        · simp [handle_move, hpu, hmem] at h

/-- Claim C5 amended witness: concrete status derivations, including a
check phrase in a position whose draw-rule predicates are set. -/
theorem status_priority_and_narrative_witness :
    status_detail ⟨false, false, false, true, true, true⟩ Color.white true =
      ("White is in CHECK!", true) ∧
    status_detail ⟨false, false, false, false, false, false⟩ Color.black false =
      ("Black to move.", false) := by
  constructor
  · have h := (status_priority_and_narrative Bool Nat demoEngine).2.2.2.1
      ⟨false, false, false, true, true, true⟩ Color.white true rfl rfl rfl rfl
    exact h
  · have h := (status_priority_and_narrative Bool Nat demoEngine).2.2.2.2.1
      ⟨false, false, false, false, false, false⟩ Color.black rfl rfl rfl rfl
    exact h

/-- Claim C6 counterexample: the parser returns the placeholder string
`(No thoughts provided, only move)` for a lone move line, not
`no rationale provided`, and returns `AI analysis not available.` for the
empty input, not an `empty response` placeholder. -/
theorem parser_placeholder_strings_differ :
    parse_llm_response "e7e5" = ("(No thoughts provided, only move)", some "e7e5") ∧
    (parse_llm_response "e7e5").1 ≠ "no rationale provided" ∧
    parse_llm_response "" = ("AI analysis not available.", none) ∧
    (parse_llm_response "").1 ≠ "empty response" := by
  decide

/-- Claim C6 amended: the reference behaviour of the parser with the
placeholder strings the code actually uses — a lone matching move line
yields `(No thoughts provided, only move)`, rationale lines before a
matching move line are joined and stripped, the empty input yields the
untouched default `AI analysis not available.`, whitespace-only input
yields `(LLM response was empty)`, and any text whose stripped last line
does not match the token grammar becomes in full the rationale with an
absent move; the function is total, so no exception is possible. -/
theorem parser_reference_behavior :
    parse_llm_response "e7e5" = ("(No thoughts provided, only move)", some "e7e5") ∧
    parse_llm_response "I will develop.\ng8f6" = ("I will develop.", some "g8f6") ∧
    parse_llm_response "I resign" = ("I resign", none) ∧
    parse_llm_response "" = ("AI analysis not available.", none) ∧
    parse_llm_response " \n " = ("(LLM response was empty)", none) ∧
    ∀ s : String, s ≠ "" → strip s.toList ≠ [] →
      is_uci_token_chars (strip ((split_on_newline (strip s.toList)).getLastD [])) = false →
      parse_llm_response s = (String.mk (strip s.toList), none) := by
  refine ⟨by decide, by decide, by decide, by decide, by decide, ?_⟩
  intro s h0 h1 h2
  have h1' : ¬ (strip s.toList = []) := h1
  have h2' : ¬ (is_uci_token_chars
      (strip ((split_on_newline (strip s.toList)).getLastD [])) = true) := by
    rw [h2]
    exact Bool.false_ne_true
  simp only [parse_llm_response]
  rw [if_neg h0, if_neg h1', if_neg h2']

/-- Claim C6 amended witness: a response with no trailing move token
degrades to the whole text as rationale with an absent move. -/
theorem parser_reference_behavior_witness :
    parse_llm_response "thinking only" = ("thinking only", none) := by
  have h := parser_reference_behavior.2.2.2.2.2 "thinking only"
    (by decide) (by decide) (by decide)
  exact h

/-- Claim C7 counterexample: `E7E5` matches the token grammar
case-insensitively, yet the parser does not extract it (the regex has no
IGNORECASE flag): the whole text becomes the rationale and the move is
absent rather than the normalized `e7e5`. -/
theorem uppercase_token_not_extracted :
    parse_llm_response "E7E5" = ("E7E5", none) ∧
    uci_token_ci "E7E5".toList = true ∧
    (parse_llm_response "E7E5").2 ≠ some "e7e5" := by
  decide

/-- Claim C7 amended: the parser extracts the stripped last line verbatim
as the candidate move exactly when it matches the lowercase-only token
grammar; a line matching only case-insensitively is not extracted and
yields an absent move, and no lowercase normalization is performed. -/
theorem move_token_case_sensitivity :
    (∀ s : String, s ≠ "" → strip s.toList ≠ [] →
      is_uci_token_chars (strip ((split_on_newline (strip s.toList)).getLastD [])) = true →
      (parse_llm_response s).2 =
        some (String.mk (strip ((split_on_newline (strip s.toList)).getLastD [])))) ∧
    (∀ s : String, s ≠ "" → strip s.toList ≠ [] →
      uci_token_ci (strip ((split_on_newline (strip s.toList)).getLastD [])) = true →
      is_uci_token_chars (strip ((split_on_newline (strip s.toList)).getLastD [])) = false →
      (parse_llm_response s).2 = none) := by
  constructor
  · intro s h0 h1 h2
    have h1' : ¬ (strip s.toList = []) := h1
    simp only [parse_llm_response]
    rw [if_neg h0, if_neg h1', if_pos h2]
  · intro s h0 h1 _ h3
    have h1' : ¬ (strip s.toList = []) := h1
    have h3' : ¬ (is_uci_token_chars
        (strip ((split_on_newline (strip s.toList)).getLastD [])) = true) := by
      rw [h3]
      exact Bool.false_ne_true
    simp only [parse_llm_response]
    rw [if_neg h0, if_neg h1', if_neg h3']

/-- Claim C7 amended witness: the lowercase token is extracted verbatim,
the uppercase variant is not. -/
theorem move_token_case_sensitivity_witness :
    (parse_llm_response "e7e5").2 = some "e7e5" ∧
    (parse_llm_response "E7E5").2 = none := by
  constructor
  · have h := move_token_case_sensitivity.1 "e7e5" (by decide) (by decide) (by decide)
    exact h
  · exact move_token_case_sensitivity.2 "E7E5" (by decide) (by decide) (by decide) (by decide)

/-- Claim C8: a user move whose constructed token the Rules Engine rejects,
or whose parsed move is outside the current legal-move set, produces a
request error carrying the current FEN while the game state and its
history are left untouched. -/
theorem rejected_user_move_leaves_state_unchanged {P M : Type} [DecidableEq M]
    (eng : Engine P M) (st : GameState P M) (d : MoveRequest)
    (replies : Nat → SendResult) (seed : Nat) (ck : Bool)
    (h : eng.parse_uci st.pos (build_move_uci eng st.pos d) = none ∨
      ∃ m, eng.parse_uci st.pos (build_move_uci eng st.pos d) = some m ∧
        m ∉ eng.legal_moves st.pos) :
    (handle_move eng st (some d) replies seed ck).1 = st ∧
    (handle_move eng st (some d) replies seed ck).1.stack = st.stack ∧
    ∃ msg, (handle_move eng st (some d) replies seed ck).2 =
      HttpReply.badRequest msg (eng.fen st.pos) := by
  rcases h with h | ⟨m, hm, hnot⟩
  · refine ⟨?_, ?_, ⟨"Invalid move format: " ++ build_move_uci eng st.pos d, ?_⟩⟩ <;>
      simp [handle_move, h]
  · refine ⟨?_, ?_, ⟨"Illegal move: " ++ build_move_uci eng st.pos d, ?_⟩⟩ <;>
      simp [handle_move, hm, hnot]

/-- Claim C8 witness: the malformed token `zzzz` yields a 400 with the
unchanged state. -/
theorem rejected_user_move_leaves_state_unchanged_witness :
    (handle_move demoEngine ⟨true, []⟩ (some ⟨"zz", "zz", none⟩)
      (fun _ => SendResult.exn) 0 true).1 = ⟨true, []⟩ ∧
    ∃ msg, (handle_move demoEngine ⟨true, []⟩ (some ⟨"zz", "zz", none⟩)
      (fun _ => SendResult.exn) 0 true).2 = HttpReply.badRequest msg "FEN1" := by
  have h := rejected_user_move_leaves_state_unchanged demoEngine ⟨true, []⟩
      ⟨"zz", "zz", none⟩ (fun _ => SendResult.exn) 0 true (Or.inl (by decide))
  exact ⟨h.1, h.2.2⟩

/-- Claim C9: with a truthy promotion hint, the lowercased hint is appended
to the constructed token exactly when both square names parse, the origin
square holds a pawn, and the destination is the last rank of the pawn
colour (rank index 7 for White, 0 for Black); otherwise the token is the
bare concatenation of the square names and no error arises. -/
theorem promotion_hint_appended_iff (eng : Engine P M) (pos : P) (f t p : String)
    (hp : p ≠ "") :
    (build_move_uci eng pos ⟨f, t, some p⟩ = f ++ t ++ lower p ↔
      ∃ fs ts pc, parse_square f = some fs ∧ parse_square t = some ts ∧
        eng.piece_at pos fs = some pc ∧ pc.ptype = PieceType.pawn ∧
        ((pc.color = Color.white ∧ square_rank ts = 7) ∨
         (pc.color = Color.black ∧ square_rank ts = 0))) ∧
    ((¬ ∃ fs ts pc, parse_square f = some fs ∧ parse_square t = some ts ∧
        eng.piece_at pos fs = some pc ∧ pc.ptype = PieceType.pawn ∧
        ((pc.color = Color.white ∧ square_rank ts = 7) ∨
         (pc.color = Color.black ∧ square_rank ts = 0))) →
      build_move_uci eng pos ⟨f, t, some p⟩ = f ++ t) := by
  have hbase : (¬ ∃ fs ts pc, parse_square f = some fs ∧ parse_square t = some ts ∧
      eng.piece_at pos fs = some pc ∧ pc.ptype = PieceType.pawn ∧
      ((pc.color = Color.white ∧ square_rank ts = 7) ∨
       (pc.color = Color.black ∧ square_rank ts = 0))) →
      build_move_uci eng pos ⟨f, t, some p⟩ = f ++ t := by
    intro hn
    unfold build_move_uci
    simp only [if_neg hp]
    split
    · split
      · rename_i fs ts hf ht
        split
        · rename_i pc hpc
          split
          · rename_i hcond
            exact absurd ⟨fs, ts, pc, hf, ht, hpc, hcond.1, hcond.2⟩ hn
          · rfl
        · rfl
      · rfl
    · rfl
  constructor
  · constructor
    · intro he
      by_contra hn
      rw [hbase hn] at he
      exact append_lower_ne (f ++ t) hp he.symm
    · rintro ⟨fs, ts, pc, h1, h2, h3, h4, h5⟩
      have hf2 : f.length = 2 := parse_square_length h1
      have ht2 : t.length = 2 := parse_square_length h2
      unfold build_move_uci
      simp only [if_neg hp, if_pos (And.intro hf2 ht2), h1, h2, h3]
      rw [if_pos (And.intro h4 h5)]
  · exact hbase

/-- Claim C9 witness: a white pawn on `e7` moving to `e8` with hint `q`
produces `e7e8q`; the same hint on a move from an empty square is dropped. -/
theorem promotion_hint_appended_iff_witness :
    build_move_uci demoEngine true ⟨"e7", "e8", some "q"⟩ = "e7e8q" ∧
    build_move_uci demoEngine true ⟨"a2", "a3", some "q"⟩ = "a2a3" := by
  constructor
  · have h := (promotion_hint_appended_iff demoEngine true "e7" "e8" "q"
      (by decide)).1.mpr
      ⟨52, 60, ⟨PieceType.pawn, Color.white⟩, by decide, by decide, by decide,
        rfl, Or.inl ⟨rfl, by decide⟩⟩
    exact h.trans (by decide)
  · refine (promotion_hint_appended_iff demoEngine true "a2" "a3" "q"
      (by decide)).2 ?_
    rintro ⟨fs, ts, pc, h1, h2, h3, h4, h5⟩
    have e1 : (8 : Nat) = fs := by
      have hd : parse_square "a2" = some 8 := by decide
      exact Option.some.inj (hd.symm.trans h1)
    rw [← e1] at h3
    have hnone : demoEngine.piece_at true 8 = none := by decide
    rw [hnone] at h3
    exact Option.noConfusion h3

/-- Claim C10: the Fallback Selector on an empty legal-move set returns an
absent move with a rationale ending in the no-legal-moves note; on a
non-empty set it returns the member selected by the uniform index choice,
and each index below the length is selected by the seeds in its residue
class. -/
theorem fallback_selector_contract (eng : Engine P M) (pos : P) (seed : Nat)
    (et : Option String) :
    (eng.legal_moves pos = [] →
      (get_random_move_with_thoughts eng pos seed et).move = none ∧
      ∃ pre, (get_random_move_with_thoughts eng pos seed et).thoughts =
        pre ++ " (No legal moves available!)") ∧
    (∀ h : eng.legal_moves pos ≠ [],
      (get_random_move_with_thoughts eng pos seed et).move =
        some (eng.uci (random_choice seed (eng.legal_moves pos) h)) ∧
      random_choice seed (eng.legal_moves pos) h ∈ eng.legal_moves pos) ∧
    (∀ i, ∀ hi : i < (eng.legal_moves pos).length,
      (get_random_move_with_thoughts eng pos i et).move =
        some (eng.uci ((eng.legal_moves pos).get ⟨i, hi⟩))) := by
  refine ⟨?_, ?_, ?_⟩
  · intro h
    constructor
    · simp [get_random_move_with_thoughts, h]
    · refine ⟨(match et with
        | none => "AI analysis not available."
        | some s => if s = "" then "AI analysis not available." else s) ++
        " (AI failed to provide a valid move, choosing randomly.)", ?_⟩
      simp [get_random_move_with_thoughts, h]
  · intro h
    refine ⟨get_random_move_nonempty eng pos seed et h, ?_⟩
    exact List.get_mem _ _ _
  · intro i hi
    have h : eng.legal_moves pos ≠ [] := by
      intro hnil
      rw [hnil] at hi
      simp at hi
    rw [get_random_move_nonempty eng pos i et h]
    have : random_choice i (eng.legal_moves pos) h = (eng.legal_moves pos).get ⟨i, hi⟩ := by
      simp [random_choice, Nat.mod_eq_of_lt hi]
    rw [this]

/-- Claim C10 witness: the empty position yields an absent move; on the
two-move position seed 1 selects the second legal move. -/
theorem fallback_selector_contract_witness :
    (get_random_move_with_thoughts demoEngine false 0 none).move = none ∧
    (get_random_move_with_thoughts demoEngine true 1 none).move = some "g8f6" := by
  constructor
  · exact ((fallback_selector_contract demoEngine false 0 none).1 rfl).1
  · have h := (fallback_selector_contract demoEngine true 1 none).2.2 1 (by decide)
    exact h.trans (by decide)

end GeminiChess
